import Mathlib

/-!
A shallow embedding of the lobby engine of the word game repository
(package `game`, file containing `Lobby` and its handlers).

Go `*Client` values live in the lobby map `clients` keyed by their unique
id, so pointer identity coincides with structural identity of the embedded
`Client` records; Go slices become `List`, the `clients` map becomes a list
of its values, Go `int` becomes `Int`, and every Go statement that can
panic (slice indexing out of range, `%` by zero) is modelled by returning
`none`.  External collaborators (`words.IsValidWord`, `words.GetChallenge`,
`time.Now`) are passed in as an explicit environment.  Broadcasts are
collected in order into a result list instead of being written to client
channels.
-/

namespace Wordgame

inductive GameStatus
  | WaitingForPlayers
  | InProgress
  | Over
deriving DecidableEq

structure Client where
  id : Int
  displayName : String
  iconName : String
deriving DecidableEq

inductive ChallengeDifficulty
  | ChallengeEasy
  | ChallengeMedium
  | ChallengeHard
deriving DecidableEq

/-- One broadcast message, with the payload fields the lobby actually sends. -/
inductive Msg
  | ClientLeft (clientId : Int)
  | GameOver (winnerId : Int)
  | TurnExpired (clientId : Int)
  | ClientsTurn (clientId : Int) (challenge : String) (turnEnd : Int)
  | AnswerAccepted (text : String)
  | AnswerRejected (text : String)
  | AnswerPreview (text : String)
  | RestartGame
  | NameChange (clientId : Int) (newName : String)
deriving DecidableEq

/-- A Go `any` payload: either a string or some non-string value
(the handlers only ever type-assert to `string`). -/
inductive GoVal
  | strVal (s : String)
  | otherVal
deriving DecidableEq

/-- The external collaborators the lobby calls out to. -/
structure Env where
  isValidWord : String → Bool
  getChallenge : ChallengeDifficulty → String
  now : Int

/-- The mutable lobby state (the fields of the Go `Lobby` struct that the
handlers read and write; channels, logger, icon pool and the id counter are
I/O plumbing outside the state machine). -/
structure Lobby where
  clients : List Client
  aliveClients : List Client
  status : GameStatus
  turnIndex : Int
  turnRounds : Int
  currentChallenge : String
  currentAnswerPrev : String
  currentTurnEnd : Int
  winnersName : String
deriving DecidableEq

/-- The state `NewLobby` constructs: waiting, empty, `turnIndex = -1`,
all other fields at their Go zero values. -/
def NewLobby : Lobby :=
  { clients := []
    aliveClients := []
    status := GameStatus.WaitingForPlayers
    turnIndex := -1
    turnRounds := 0
    currentChallenge := ""
    currentAnswerPrev := ""
    currentTurnEnd := 0
    winnersName := "" }

/-- Go slice indexing `l[i]` with an `int` index; `none` models the
out-of-range panic. -/
def goIndex (l : List Client) (i : Int) : Option Client :=
  if 0 ≤ i then l[i.toNat]? else none

/-- Go `slices.Index`: first index whose element equals `c`, `-1` if absent. -/
def goSlicesIndex (c : Client) : List Client → Int
  | [] => -1
  | x :: xs =>
    if x = c then 0
    else if goSlicesIndex c xs = -1 then -1 else goSlicesIndex c xs + 1

/-- Substring occurrence on character lists (Go `strings.Contains`). -/
def containsSub (hay needle : List Char) : Bool :=
  needle.isPrefixOf hay ||
    match hay with
    | [] => false
    | _ :: t => containsSub t needle

/-- Go `strings.Contains s substr`. -/
def goStringsContains (s substr : String) : Bool :=
  containsSub s.data substr.data

/-- The ordering used by `resetAliveClients` and `BuildClientDetails`:
ascending client id (the Go comparator `c1.id - c2.id`). -/
def clientIdLe (c1 c2 : Client) : Prop := c1.id ≤ c2.id

instance : DecidableRel clientIdLe :=
  fun c1 c2 => inferInstanceAs (Decidable (c1.id ≤ c2.id))

instance : IsTotal Client clientIdLe := ⟨fun a b => Int.le_total a.id b.id⟩

instance : IsTrans Client clientIdLe := ⟨fun _ _ _ h1 h2 => Int.le_trans h1 h2⟩

/-- `slices.SortedFunc(maps.Values(clients), by ascending id)`. -/
def sortClientsById (l : List Client) : List Client :=
  List.insertionSort clientIdLe l

/-- `Lobby.resetAliveClients`: alive list becomes all clients, ascending id. -/
def resetAliveClients (lobby : Lobby) : Lobby :=
  { lobby with aliveClients := sortClientsById lobby.clients }

/-- Go `delete(lobby.clients, id)`. -/
def clientsDelete (clients : List Client) (id : Int) : List Client :=
  clients.filter (fun c => decide (c.id ≠ id))

/-- Go map membership test `_, exists := lobby.clients[id]`. -/
def clientsHasId (clients : List Client) (id : Int) : Bool :=
  clients.any (fun c => decide (c.id = id))

/-- `Lobby.getTurnDifficulty`. -/
def getTurnDifficulty (lobby : Lobby) : ChallengeDifficulty :=
  if lobby.turnRounds > 10 then ChallengeDifficulty.ChallengeHard
  else if lobby.turnRounds > 4 then ChallengeDifficulty.ChallengeMedium
  else ChallengeDifficulty.ChallengeEasy

/-- `Lobby.getTurnLimitDuration`, in seconds (the Go `switch true` chain,
top-down, first match wins). -/
def getTurnLimitDuration (lobby : Lobby) : Int :=
  if lobby.turnRounds > 12 then 16
  else if lobby.turnRounds > 5 then 18
  else if lobby.turnRounds > 1 then 20
  else if lobby.turnRounds = 1 then 25
  else 20

/-- First half of `Lobby.changeTurn`: update `aliveClients` and `turnIndex`.
Advance mode: `(turnIndex + 1) % len(aliveClients)` (Go `%` truncates, hence
`Int.tmod`; `%` by zero and the logging index panic are `none`).  Eliminate
mode: drop the client at `turnIndex`; the index stays, except it wraps to 0
when it now equals the shrunken length. -/
def changeTurnStep1 (lobby : Lobby) (removeCurrentClient : Bool) : Option Lobby :=
  if removeCurrentClient = false then
    if lobby.aliveClients.length = 0 then none
    else if lobby.turnIndex > -1 ∧ goIndex lobby.aliveClients lobby.turnIndex = none then none
    else some { lobby with
      turnIndex := (lobby.turnIndex + 1).tmod (lobby.aliveClients.length : Int) }
  else
    match goIndex lobby.aliveClients lobby.turnIndex with
    | none => none
    | some eliminatedClient =>
      let newAlive := lobby.aliveClients.filter (fun c => decide (c.id ≠ eliminatedClient.id))
      let newIndex : Int := if lobby.turnIndex = (newAlive.length : Int) then 0 else lobby.turnIndex
      if goIndex newAlive newIndex = none then none
      else some { lobby with aliveClients := newAlive, turnIndex := newIndex }

/-- Second half of `Lobby.changeTurn`: bump `turnRounds` when the index
wrapped to 0, set deadline and a fresh challenge, broadcast `clients_turn`. -/
def changeTurnFinish (env : Env) (l1 : Lobby) : Option (Lobby × List Msg) :=
  let l2 := if l1.turnIndex = 0 then { l1 with turnRounds := l1.turnRounds + 1 } else l1
  let l3 := { l2 with
    currentTurnEnd := env.now + getTurnLimitDuration l2 * 1000
    currentChallenge := env.getChallenge (getTurnDifficulty l2) }
  match goIndex l3.aliveClients l3.turnIndex with
  | none => none
  | some currentClient =>
    some (l3, [Msg.ClientsTurn currentClient.id l3.currentChallenge l3.currentTurnEnd])

/-- `Lobby.changeTurn`. -/
def changeTurn (env : Env) (lobby : Lobby) (removeCurrentClient : Bool) :
    Option (Lobby × List Msg) :=
  match changeTurnStep1 lobby removeCurrentClient with
  | none => none
  | some l1 => changeTurnFinish env l1

/-- `Lobby.onTurnExpired`. -/
def onTurnExpired (env : Env) (lobby : Lobby) : Option (Lobby × List Msg) :=
  if lobby.status ≠ GameStatus.InProgress then some (lobby, [])
  else
    match goIndex lobby.aliveClients lobby.turnIndex with
    | none => none
    | some currentClient =>
      if lobby.aliveClients.length > 2 then
        match changeTurn env lobby true with
        | none => none
        | some (l1, msgs) => some (l1, Msg.TurnExpired currentClient.id :: msgs)
      else
        let l1 := { lobby with status := GameStatus.Over }
        match goIndex l1.aliveClients l1.turnIndex with
        | none => none
        | some losingClient =>
          let winnerSlot : Int := if l1.turnIndex = (0 : Int) then 1 else 0
          match goIndex l1.aliveClients winnerSlot with
          | none => none
          | some winningClient =>
            some ({ l1 with
                      aliveClients := [winningClient]
                      winnersName := winningClient.displayName },
                  [Msg.TurnExpired currentClient.id,
                   Msg.TurnExpired losingClient.id,
                   Msg.GameOver winningClient.id])

/-- `Lobby.onClientLeave`. -/
def onClientLeave (env : Env) (lobby : Lobby) (leavingClient : Client) :
    Option (Lobby × List Msg) :=
  if clientsHasId lobby.clients leavingClient.id = false then some (lobby, [])
  else
    let lobby1 := { lobby with clients := clientsDelete lobby.clients leavingClient.id }
    let msgs := [Msg.ClientLeft leavingClient.id]
    if lobby1.status ≠ GameStatus.InProgress ∨ leavingClient ∉ lobby1.aliveClients then
      some (lobby1, msgs)
    else if lobby1.aliveClients.length = 2 then
      match lobby1.aliveClients[0]?, lobby1.aliveClients[1]? with
      | some a0, some a1 =>
        let winningClient := if a0 = leavingClient then a1 else a0
        some ({ lobby1 with
                  status := GameStatus.Over
                  winnersName := winningClient.displayName },
              msgs ++ [Msg.GameOver winningClient.id])
      | _, _ => none
    else
      let leavingClientTurnIndex := goSlicesIndex leavingClient lobby1.aliveClients
      if leavingClientTurnIndex = lobby1.turnIndex then
        match changeTurn env lobby1 true with
        | none => none
        | some (l2, turnMsgs) => some (l2, msgs ++ turnMsgs)
      else
        let newAlive := lobby1.aliveClients.filter (fun c => decide (c.id ≠ leavingClient.id))
        let lobby2 := { lobby1 with aliveClients := newAlive }
        let lobby3 :=
          if leavingClientTurnIndex < lobby2.turnIndex then
            { lobby2 with turnIndex := lobby2.turnIndex - 1 }
          else lobby2
        some (lobby3, msgs)

/-- `Lobby.onStartGame`. -/
def onStartGame (env : Env) (lobby : Lobby) : Option (Lobby × List Msg) :=
  if lobby.status = GameStatus.WaitingForPlayers ∧ 2 ≤ lobby.clients.length then
    changeTurn env (resetAliveClients { lobby with status := GameStatus.InProgress }) false
  else some (lobby, [])

/-- `Lobby.onRestartGame`. -/
def onRestartGame (env : Env) (lobby : Lobby) : Option (Lobby × List Msg) :=
  if lobby.status = GameStatus.Over ∧ 2 ≤ lobby.clients.length then
    let lobby1 :=
      { resetAliveClients lobby with
          status := GameStatus.InProgress
          turnIndex := -1
          turnRounds := 0 }
    match changeTurn env lobby1 false with
    | none => none
    | some (l2, msgs) => some (l2, Msg.RestartGame :: msgs)
  else some (lobby, [])

/-- `Lobby.onAnswerPreview`. -/
def onAnswerPreview (lobby : Lobby) (fromId : Int) (content : GoVal) :
    Option (Lobby × List Msg) :=
  if lobby.status = GameStatus.InProgress then
    match goIndex lobby.aliveClients lobby.turnIndex with
    | none => none
    | some currentClient =>
      if fromId = currentClient.id then
        match content with
        | GoVal.strVal text =>
          some ({ lobby with currentAnswerPrev := text }, [Msg.AnswerPreview text])
        | GoVal.otherVal => some (lobby, [])
      else some (lobby, [])
  else some (lobby, [])

/-- `Lobby.onAnswerSubmitted`. -/
def onAnswerSubmitted (env : Env) (lobby : Lobby) (fromId : Int) (content : GoVal) :
    Option (Lobby × List Msg) :=
  if lobby.status = GameStatus.InProgress then
    match goIndex lobby.aliveClients lobby.turnIndex with
    | none => none
    | some currentClient =>
      if fromId = currentClient.id then
        match content with
        | GoVal.otherVal => some (lobby, [])
        | GoVal.strVal answer =>
          if env.isValidWord answer = false then
            some (lobby, [Msg.AnswerRejected answer])
          else if answer = lobby.currentChallenge then
            some (lobby, [Msg.AnswerRejected answer])
          else if goStringsContains answer lobby.currentChallenge = false then
            some (lobby, [Msg.AnswerRejected answer])
          else
            match changeTurn env lobby false with
            | none => none
            | some (l1, msgs) => some (l1, Msg.AnswerAccepted answer :: msgs)
      else some (lobby, [])
  else some (lobby, [])

/-- One entry of the catch-up snapshot roster. -/
structure ClientContent where
  Id : Int
  DisplayName : String
  IconName : String
  Alive : Bool
deriving DecidableEq

/-- The catch-up snapshot payload. -/
structure ClientDetailsContent where
  ClientId : Int
  Status : GameStatus
  Clients : List ClientContent
  CurrentTurnId : Int
  CurrentChallenge : String
  CurrentAnswerPrev : String
  TurnEnd : Int
  WinnersName : String
deriving DecidableEq

/-- `Lobby.BuildClientDetails`. -/
def BuildClientDetails (lobby : Lobby) (joiningClientId : Int) :
    Option ClientDetailsContent :=
  let sortedClients := sortClientsById lobby.clients
  let clientContents := sortedClients.map (fun c =>
    { Id := c.id
      DisplayName := c.displayName
      IconName := c.iconName
      Alive := decide (lobby.status = GameStatus.WaitingForPlayers) ||
        decide (c ∈ lobby.aliveClients) : ClientContent })
  let finish := fun (currentTurnId : Int) =>
    some { ClientId := joiningClientId
           Status := lobby.status
           Clients := clientContents
           CurrentTurnId := currentTurnId
           CurrentChallenge := lobby.currentChallenge
           CurrentAnswerPrev := lobby.currentAnswerPrev
           TurnEnd := lobby.currentTurnEnd
           WinnersName := lobby.winnersName }
  if lobby.status = GameStatus.InProgress then
    match goIndex lobby.aliveClients lobby.turnIndex with
    | none => none
    | some currentClient => finish currentClient.id
  else finish 0

/-! Concrete states used to evaluate the handlers on explicit inputs. -/

/-- An environment with a small executable word check (a word is valid iff
it has at least two characters) and a fixed challenge generator. -/
def testEnv : Env :=
  { isValidWord := fun s => decide (2 ≤ s.length)
    getChallenge := fun _ => "ra"
    now := 1000 }

def cA : Client := { id := 1, displayName := "alice", iconName := "bear.png" }

def cB : Client := { id := 2, displayName := "bob", iconName := "cat.png" }

def cC : Client := { id := 3, displayName := "carol", iconName := "dog.png" }

/-- An in-progress game with three alive clients, cB (index 1) on turn. -/
def threeAliveLobby : Lobby :=
  { clients := [cA, cB, cC]
    aliveClients := [cA, cB, cC]
    status := GameStatus.InProgress
    turnIndex := 1
    turnRounds := 1
    currentChallenge := "atr"
    currentAnswerPrev := "pre"
    currentTurnEnd := 500
    winnersName := "" }

/-- An in-progress game with exactly two alive clients, cA (index 0) on turn. -/
def twoAliveLobby : Lobby :=
  { clients := [cA, cB]
    aliveClients := [cA, cB]
    status := GameStatus.InProgress
    turnIndex := 0
    turnRounds := 1
    currentChallenge := "atr"
    currentAnswerPrev := "pre"
    currentTurnEnd := 500
    winnersName := "" }

/-- Same two-alive game with cB (index 1) on turn. -/
def twoAliveLobbyB : Lobby := { twoAliveLobby with turnIndex := 1 }

/-- A waiting lobby with two clients (roster deliberately not id-sorted). -/
def waitingLobby : Lobby := { NewLobby with clients := [cB, cA] }

/-- A waiting lobby with a single client. -/
def oneClientLobby : Lobby := { NewLobby with clients := [cA] }

/-- A finished game with two clients still connected. -/
def overLobby : Lobby :=
  { clients := [cB, cA]
    aliveClients := [cB]
    status := GameStatus.Over
    turnIndex := 0
    turnRounds := 7
    currentChallenge := "atr"
    currentAnswerPrev := "pre"
    currentTurnEnd := 500
    winnersName := "bob" }

/-- A lobby whose only relevant feature is its `turnRounds` value. -/
def roundsLobby (n : Int) : Lobby := { NewLobby with turnRounds := n }

/-- The state and broadcasts after an advance-mode turn change on
`threeAliveLobby`. -/
def witAdvance : Lobby × List Msg :=
  (changeTurn testEnv threeAliveLobby false).getD (NewLobby, [])

/-- The state and broadcasts after cA leaves `twoAliveLobby`. -/
def leaveTwoAlive : Lobby × List Msg :=
  (onClientLeave testEnv twoAliveLobby cA).getD (NewLobby, [])

/-- The state and broadcasts after cC (not on turn) leaves `threeAliveLobby`. -/
def leaveThreeAlive : Lobby × List Msg :=
  (onClientLeave testEnv threeAliveLobby cC).getD (NewLobby, [])

/-- The snapshot built for a joiner of `threeAliveLobby`. -/
def witDetails : ClientDetailsContent :=
  (BuildClientDetails threeAliveLobby 4).getD
    { ClientId := 0, Status := GameStatus.WaitingForPlayers, Clients := []
      CurrentTurnId := 0, CurrentChallenge := "", CurrentAnswerPrev := ""
      TurnEnd := 0, WinnersName := "" }

/-! ### Basic facts about the Go-style helpers -/

theorem goIndex_eq_some {l : List Client} {i : Int} {c : Client} :
    goIndex l i = some c ↔ 0 ≤ i ∧ l[i.toNat]? = some c := by
  unfold goIndex
  split_ifs with h <;> simp [h]

theorem goIndex_some_bounds {l : List Client} {i : Int} {c : Client}
    (h : goIndex l i = some c) : 0 ≤ i ∧ i.toNat < l.length := by
  obtain ⟨h0, hg⟩ := goIndex_eq_some.mp h
  obtain ⟨hlt, -⟩ := List.getElem?_eq_some.mp hg
  exact ⟨h0, hlt⟩

theorem goIndex_isSome_of_lt {l : List Client} {i : Int}
    (h0 : 0 ≤ i) (hlt : i.toNat < l.length) : ∃ c, goIndex l i = some c := by
  unfold goIndex
  rw [if_pos h0]
  exact ⟨_, List.getElem?_eq_getElem hlt⟩

theorem filter_ne_eq_eraseIdx {l : List Client} :
    ∀ {i : Nat} {e : Client}, l[i]? = some e → (l.map Client.id).Nodup →
      l.filter (fun c => decide (c.id ≠ e.id)) = l.eraseIdx i := by
  induction l with
  | nil => intro i e he _; simp at he
  | cons x xs ih =>
    intro i e he hnd
    simp only [List.map_cons, List.nodup_cons] at hnd
    obtain ⟨hx, hxs⟩ := hnd
    match i with
    | 0 =>
      have hxe : x = e := by simpa using he
      subst hxe
      rw [List.eraseIdx_cons_zero, List.filter_cons, if_neg (by simp)]
      rw [List.filter_eq_self]
      intro a ha
      simp only [decide_eq_true_eq]
      intro hEq
      exact hx (hEq ▸ List.mem_map_of_mem Client.id ha)
    | i + 1 =>
      rw [List.getElem?_cons_succ] at he
      have hmem : e ∈ xs := List.getElem?_mem he
      have hxe : x.id ≠ e.id := by
        intro hEq
        exact hx (hEq ▸ List.mem_map_of_mem Client.id hmem)
      rw [List.eraseIdx_cons_succ, List.filter_cons, if_pos (by simpa using hxe)]
      rw [ih he hxs]

theorem not_mem_filter_ne (l : List Client) (e : Client) :
    e ∉ l.filter (fun c => decide (c.id ≠ e.id)) := by
  intro h
  have h2 := (List.mem_filter.mp h).2
  simp at h2

theorem id_not_mem_filter_ne (l : List Client) (i : Int) :
    ¬ i ∈ (l.filter (fun c => decide (c.id ≠ i))).map Client.id := by
  intro h
  obtain ⟨c, hc, hce⟩ := List.mem_map.mp h
  have h2 := (List.mem_filter.mp hc).2
  rw [hce] at h2
  simp at h2

theorem goSlicesIndex_spec :
    ∀ (l : List Client) (c : Client), c ∈ l →
      0 ≤ goSlicesIndex c l ∧ goIndex l (goSlicesIndex c l) = some c := by
  intro l
  induction l with
  | nil => intro c hc; simp at hc
  | cons x xs ih =>
    intro c hc
    by_cases hxc : x = c
    · subst hxc
      constructor
      · unfold goSlicesIndex; simp
      · unfold goSlicesIndex goIndex; simp
    · have hc2 : c ∈ xs := by
        rcases List.mem_cons.mp hc with h | h
        · exact absurd h.symm hxc
        · exact h
      obtain ⟨h0, hidx⟩ := ih c hc2
      have hne : goSlicesIndex c xs ≠ -1 := by omega
      have hval : goSlicesIndex c (x :: xs) = goSlicesIndex c xs + 1 := by
        rw [goSlicesIndex, if_neg hxc, if_neg hne]
      constructor
      · omega
      · rw [hval]
        obtain ⟨-, hg⟩ := goIndex_eq_some.mp hidx
        rw [goIndex_eq_some]
        refine ⟨by omega, ?_⟩
        have htn : (goSlicesIndex c xs + 1).toNat = (goSlicesIndex c xs).toNat + 1 := by omega
        rw [htn, List.getElem?_cons_succ]
        exact hg

/-! ### Behaviour of `changeTurn` in its two modes -/

theorem changeTurnStep1_false_spec (lobby : Lobby)
    (hlen : 0 < lobby.aliveClients.length)
    (hidx : lobby.turnIndex = -1 ∨ goIndex lobby.aliveClients lobby.turnIndex ≠ none) :
    changeTurnStep1 lobby false =
      some { lobby with
        turnIndex := (lobby.turnIndex + 1).tmod (lobby.aliveClients.length : Int) } := by
  have hc : ¬ (lobby.turnIndex > -1 ∧ goIndex lobby.aliveClients lobby.turnIndex = none) := by
    rintro ⟨hgt, hnone⟩
    rcases hidx with h | h
    · omega
    · exact h hnone
  unfold changeTurnStep1
  rw [if_pos rfl, if_neg (by omega), if_neg hc]

theorem changeTurnStep1_true_spec (lobby : Lobby) (e : Client)
    (he : goIndex lobby.aliveClients lobby.turnIndex = some e)
    (hnd : (lobby.aliveClients.map Client.id).Nodup)
    (hlen : 2 ≤ lobby.aliveClients.length) :
    changeTurnStep1 lobby true =
      some { lobby with
        aliveClients := lobby.aliveClients.eraseIdx lobby.turnIndex.toNat
        turnIndex :=
          if lobby.turnIndex = (lobby.aliveClients.length : Int) - 1 then 0
          else lobby.turnIndex } := by
  obtain ⟨h0, hlt⟩ := goIndex_some_bounds he
  obtain ⟨-, hg⟩ := goIndex_eq_some.mp he
  have hfe := filter_ne_eq_eraseIdx hg hnd
  have hlenE : (lobby.aliveClients.eraseIdx lobby.turnIndex.toNat).length
      = lobby.aliveClients.length - 1 := List.length_eraseIdx_of_lt hlt
  unfold changeTurnStep1
  rw [if_neg (by simp)]
  rw [he]
  dsimp only
  rw [hfe, hlenE]
  have hcast : ((lobby.aliveClients.length - 1 : Nat) : Int)
      = (lobby.aliveClients.length : Int) - 1 := by omega
  rw [hcast]
  by_cases hw : lobby.turnIndex = (lobby.aliveClients.length : Int) - 1
  · rw [if_pos hw]
    obtain ⟨c2, hc2⟩ := goIndex_isSome_of_lt (l := lobby.aliveClients.eraseIdx lobby.turnIndex.toNat)
      (i := 0) (by omega) (by omega)
    rw [hc2]
    simp
  · rw [if_neg hw]
    obtain ⟨c2, hc2⟩ := goIndex_isSome_of_lt (l := lobby.aliveClients.eraseIdx lobby.turnIndex.toNat)
      (i := lobby.turnIndex) h0 (by omega)
    rw [hc2]
    simp

theorem changeTurnFinish_spec (env : Env) (l1 : Lobby) (cur : Client)
    (hcur : goIndex l1.aliveClients l1.turnIndex = some cur) :
    ∃ l3, changeTurnFinish env l1 =
        some (l3, [Msg.ClientsTurn cur.id l3.currentChallenge l3.currentTurnEnd]) ∧
      l3.aliveClients = l1.aliveClients ∧
      l3.turnIndex = l1.turnIndex ∧
      l3.clients = l1.clients ∧
      l3.status = l1.status ∧
      l3.currentAnswerPrev = l1.currentAnswerPrev ∧
      l3.turnRounds = (if l1.turnIndex = 0 then l1.turnRounds + 1 else l1.turnRounds) := by
  unfold changeTurnFinish
  by_cases h0 : l1.turnIndex = 0
  · rw [if_pos h0]
    dsimp only
    rw [hcur]
    exact ⟨_, rfl, rfl, rfl, rfl, rfl, rfl, by rw [if_pos h0]⟩
  · rw [if_neg h0]
    dsimp only
    rw [hcur]
    exact ⟨_, rfl, rfl, rfl, rfl, rfl, rfl, by rw [if_neg h0]⟩

theorem changeTurn_false_spec (env : Env) (lobby : Lobby)
    (hlen : 0 < lobby.aliveClients.length)
    (hidx : lobby.turnIndex = -1 ∨ goIndex lobby.aliveClients lobby.turnIndex ≠ none) :
    ∃ l3 cur,
      changeTurn env lobby false =
        some (l3, [Msg.ClientsTurn cur.id l3.currentChallenge l3.currentTurnEnd]) ∧
      l3.aliveClients = lobby.aliveClients ∧
      l3.clients = lobby.clients ∧
      l3.status = lobby.status ∧
      l3.currentAnswerPrev = lobby.currentAnswerPrev ∧
      l3.turnIndex = (lobby.turnIndex + 1).tmod (lobby.aliveClients.length : Int) ∧
      goIndex lobby.aliveClients l3.turnIndex = some cur ∧
      (lobby.turnIndex = -1 → l3.turnIndex = 0 ∧ l3.turnRounds = lobby.turnRounds + 1) := by
  have hstep := changeTurnStep1_false_spec lobby hlen hidx
  have h1 : 0 ≤ lobby.turnIndex + 1 := by
    rcases hidx with h | h
    · omega
    · cases hgi : goIndex lobby.aliveClients lobby.turnIndex with
      | none => exact absurd hgi h
      | some c => have := (goIndex_some_bounds hgi).1; omega
  have hlenZ : (0 : Int) < (lobby.aliveClients.length : Int) := by exact_mod_cast hlen
  have hmod0 : 0 ≤ (lobby.turnIndex + 1).tmod (lobby.aliveClients.length : Int) :=
    Int.tmod_nonneg _ h1
  have hmodlt : (lobby.turnIndex + 1).tmod (lobby.aliveClients.length : Int)
      < (lobby.aliveClients.length : Int) := Int.tmod_lt_of_pos _ hlenZ
  obtain ⟨cur, hcur⟩ := goIndex_isSome_of_lt (l := lobby.aliveClients)
    (i := (lobby.turnIndex + 1).tmod (lobby.aliveClients.length : Int)) hmod0 (by omega)
  obtain ⟨l3, hfin, ha, ht, hc, hs, hp, hr⟩ :=
    changeTurnFinish_spec env
      { lobby with turnIndex := (lobby.turnIndex + 1).tmod (lobby.aliveClients.length : Int) }
      cur hcur
  refine ⟨l3, cur, ?_, ha, hc, hs, hp, ht, ?_, ?_⟩
  · unfold changeTurn
    rw [hstep]
    exact hfin
  · rw [ht]
    exact hcur
  · intro hm1
    have ht0 : l3.turnIndex = 0 := by
      rw [ht, hm1]
      simp [Int.zero_tmod]
    refine ⟨ht0, ?_⟩
    rw [hr, if_pos (by rw [hm1]; simp [Int.zero_tmod])]

theorem changeTurn_true_spec (env : Env) (lobby : Lobby) (e : Client)
    (he : goIndex lobby.aliveClients lobby.turnIndex = some e)
    (hnd : (lobby.aliveClients.map Client.id).Nodup)
    (hlen : 2 ≤ lobby.aliveClients.length) :
    ∃ l3 cur,
      changeTurn env lobby true =
        some (l3, [Msg.ClientsTurn cur.id l3.currentChallenge l3.currentTurnEnd]) ∧
      l3.aliveClients = lobby.aliveClients.eraseIdx lobby.turnIndex.toNat ∧
      l3.aliveClients = lobby.aliveClients.filter (fun c => decide (c.id ≠ e.id)) ∧
      l3.clients = lobby.clients ∧
      l3.status = lobby.status ∧
      l3.currentAnswerPrev = lobby.currentAnswerPrev ∧
      goIndex l3.aliveClients l3.turnIndex = some cur ∧
      0 ≤ l3.turnIndex ∧ l3.turnIndex < (l3.aliveClients.length : Int) ∧
      (lobby.turnIndex = (lobby.aliveClients.length : Int) - 1 → l3.turnIndex = 0) ∧
      (lobby.turnIndex ≠ (lobby.aliveClients.length : Int) - 1 →
        l3.turnIndex = lobby.turnIndex) := by
  obtain ⟨h0, hlt⟩ := goIndex_some_bounds he
  obtain ⟨-, hg⟩ := goIndex_eq_some.mp he
  have hfe := filter_ne_eq_eraseIdx hg hnd
  have hlenE : (lobby.aliveClients.eraseIdx lobby.turnIndex.toNat).length
      = lobby.aliveClients.length - 1 := List.length_eraseIdx_of_lt hlt
  have hstep := changeTurnStep1_true_spec lobby e he hnd hlen
  set mIdx : Int :=
    if lobby.turnIndex = (lobby.aliveClients.length : Int) - 1 then 0 else lobby.turnIndex
    with hmIdx
  have hmIdx0 : 0 ≤ mIdx := by
    rw [hmIdx]; split_ifs <;> omega
  have hmIdxLt : mIdx.toNat < (lobby.aliveClients.eraseIdx lobby.turnIndex.toNat).length := by
    rw [hmIdx, hlenE]; split_ifs with h <;> omega
  obtain ⟨cur, hcur⟩ := goIndex_isSome_of_lt hmIdx0 hmIdxLt
  obtain ⟨l3, hfin, ha, ht, hc, hs, hp, -⟩ :=
    changeTurnFinish_spec env
      { lobby with
          aliveClients := lobby.aliveClients.eraseIdx lobby.turnIndex.toNat
          turnIndex := mIdx }
      cur hcur
  refine ⟨l3, cur, ?_, ha, by rw [ha, hfe], hc, hs, hp, ?_, ?_, ?_, ?_, ?_⟩
  · unfold changeTurn
    rw [hstep]
    exact hfin
  · rw [ha, ht]
    exact hcur
  · rw [ht]
    dsimp only
    exact hmIdx0
  · rw [ht, ha]
    dsimp only
    rw [hlenE, hmIdx]
    split_ifs with h <;> omega
  · intro hw
    rw [ht, hmIdx, if_pos hw]
  · intro hw
    rw [ht, hmIdx, if_neg hw]

theorem changeTurnStep1_fields {lobby : Lobby} {b : Bool} {l1 : Lobby}
    (h : changeTurnStep1 lobby b = some l1) :
    l1.currentAnswerPrev = lobby.currentAnswerPrev ∧
    l1.clients = lobby.clients ∧ l1.status = lobby.status ∧
    l1.turnRounds = lobby.turnRounds := by
  unfold changeTurnStep1 at h
  cases b with
  | false =>
    rw [if_pos rfl] at h
    split_ifs at h <;> cases h <;> exact ⟨rfl, rfl, rfl, rfl⟩
  | true =>
    rw [if_neg (by simp)] at h
    cases hgi : goIndex lobby.aliveClients lobby.turnIndex with
    | none => rw [hgi] at h; cases h
    | some e =>
      rw [hgi] at h
      dsimp only at h
      split_ifs at h <;> cases h <;> exact ⟨rfl, rfl, rfl, rfl⟩

theorem changeTurnFinish_fields {env : Env} {l1 l3 : Lobby} {msgs : List Msg}
    (h : changeTurnFinish env l1 = some (l3, msgs)) :
    l3.currentAnswerPrev = l1.currentAnswerPrev ∧
    l3.clients = l1.clients ∧ l3.status = l1.status ∧
    l3.aliveClients = l1.aliveClients ∧ l3.turnIndex = l1.turnIndex := by
  unfold changeTurnFinish at h
  by_cases h0 : l1.turnIndex = 0
  · rw [if_pos h0] at h
    dsimp only at h
    cases hgi : goIndex l1.aliveClients l1.turnIndex with
    | none => rw [hgi] at h; cases h
    | some cu =>
      rw [hgi] at h
      dsimp only at h
      rw [Option.some.injEq, Prod.mk.injEq] at h
      obtain ⟨h1, -⟩ := h
      exact h1 ▸ ⟨rfl, rfl, rfl, rfl, rfl⟩
  · rw [if_neg h0] at h
    dsimp only at h
    cases hgi : goIndex l1.aliveClients l1.turnIndex with
    | none => rw [hgi] at h; cases h
    | some cu =>
      rw [hgi] at h
      dsimp only at h
      rw [Option.some.injEq, Prod.mk.injEq] at h
      obtain ⟨h1, -⟩ := h
      exact h1 ▸ ⟨rfl, rfl, rfl, rfl, rfl⟩

theorem changeTurn_fields {env : Env} {lobby : Lobby} {b : Bool} {l3 : Lobby} {msgs : List Msg}
    (h : changeTurn env lobby b = some (l3, msgs)) :
    l3.currentAnswerPrev = lobby.currentAnswerPrev ∧
    l3.clients = lobby.clients ∧ l3.status = lobby.status := by
  unfold changeTurn at h
  cases hstep : changeTurnStep1 lobby b with
  | none => rw [hstep] at h; cases h
  | some l1 =>
    rw [hstep] at h
    obtain ⟨s1, s2, s3, -⟩ := changeTurnStep1_fields hstep
    obtain ⟨f1, f2, f3, -, -⟩ := changeTurnFinish_fields h
    exact ⟨f1.trans s1, f2.trans s2, f3.trans s3⟩

theorem changeTurnStep1_true_alive {lobby : Lobby} {l1 : Lobby}
    (h : changeTurnStep1 lobby true = some l1) :
    ∃ e, goIndex lobby.aliveClients lobby.turnIndex = some e ∧
      l1.aliveClients = lobby.aliveClients.filter (fun c => decide (c.id ≠ e.id)) := by
  unfold changeTurnStep1 at h
  rw [if_neg (by simp)] at h
  cases hgi : goIndex lobby.aliveClients lobby.turnIndex with
  | none => rw [hgi] at h; cases h
  | some e =>
    rw [hgi] at h
    dsimp only at h
    split_ifs at h <;> cases h <;> exact ⟨e, rfl, rfl⟩

theorem changeTurn_true_alive {env : Env} {lobby : Lobby} {l3 : Lobby} {msgs : List Msg}
    (h : changeTurn env lobby true = some (l3, msgs)) :
    ∃ e, goIndex lobby.aliveClients lobby.turnIndex = some e ∧
      l3.aliveClients = lobby.aliveClients.filter (fun c => decide (c.id ≠ e.id)) := by
  unfold changeTurn at h
  cases hstep : changeTurnStep1 lobby true with
  | none => rw [hstep] at h; cases h
  | some l1 =>
    rw [hstep] at h
    obtain ⟨e, hgi, hal⟩ := changeTurnStep1_true_alive hstep
    obtain ⟨-, -, -, hal2, -⟩ := changeTurnFinish_fields h
    exact ⟨e, hgi, hal2.trans hal⟩

theorem clientsHasId_of_mem {l : List Client} {c : Client} (h : c ∈ l) :
    clientsHasId l c.id = true := by
  unfold clientsHasId
  rw [List.any_eq_true]
  exact ⟨c, h, by simp⟩

theorem clientsHasId_delete (l : List Client) (i : Int) :
    clientsHasId (clientsDelete l i) i = false := by
  simp [clientsHasId, clientsDelete, List.mem_filter]

/-! ### Claim theorems -/

/-- C1: an eliminate-mode turn change (`changeTurn` with
`removeCurrentClient = true`) during an in-progress game with at least
three alive clients and a valid `turnIndex` removes the client at the old
`turnIndex` from `aliveClients` (that client is absent afterwards), shrinks
`aliveClients` by exactly one, and leaves `turnIndex` a valid index into
the new list: it wraps to 0 when the removed index was the last position,
and otherwise stays numerically unchanged, then denoting the client who
was immediately after the eliminated one. -/
theorem changeTurn_eliminate_invariant (env : Env) (lobby : Lobby)
    (hstatus : lobby.status = GameStatus.InProgress)
    (hnd : (lobby.aliveClients.map Client.id).Nodup)
    (hlen : 3 ≤ lobby.aliveClients.length)
    (h0 : 0 ≤ lobby.turnIndex)
    (hlt : lobby.turnIndex < (lobby.aliveClients.length : Int)) :
    ∃ l3 msgs elim,
      goIndex lobby.aliveClients lobby.turnIndex = some elim ∧
      changeTurn env lobby true = some (l3, msgs) ∧
      elim ∉ l3.aliveClients ∧
      l3.aliveClients.length + 1 = lobby.aliveClients.length ∧
      0 ≤ l3.turnIndex ∧ l3.turnIndex < (l3.aliveClients.length : Int) ∧
      (lobby.turnIndex = (lobby.aliveClients.length : Int) - 1 → l3.turnIndex = 0) ∧
      (lobby.turnIndex < (lobby.aliveClients.length : Int) - 1 →
        l3.turnIndex = lobby.turnIndex ∧
        goIndex l3.aliveClients l3.turnIndex =
          goIndex lobby.aliveClients (lobby.turnIndex + 1)) := by
  have hlt2 : lobby.turnIndex.toNat < lobby.aliveClients.length := by omega
  obtain ⟨elim, he⟩ := goIndex_isSome_of_lt h0 hlt2
  obtain ⟨l3, cur, hrun, haE, haF, hc, hs, hp, hcur, h0n, hltn, hwrap, hstay⟩ :=
    changeTurn_true_spec env lobby elim he hnd (by omega)
  refine ⟨l3, _, elim, he, hrun, ?_, ?_, h0n, hltn, hwrap, ?_⟩
  · rw [haF]
    exact not_mem_filter_ne _ _
  · rw [haE, List.length_eraseIdx_of_lt hlt2]
    omega
  · intro hside
    have hts := hstay (by omega)
    refine ⟨hts, ?_⟩
    rw [haE, hts]
    unfold goIndex
    rw [if_pos h0, if_pos (by omega)]
    have htn : (lobby.turnIndex + 1).toNat = lobby.turnIndex.toNat + 1 := by omega
    rw [htn]
    exact List.getElem?_eraseIdx_of_ge _ _ _ (Nat.le_refl _)

/-- Witness for C1 at `threeAliveLobby` (three alive, index 1 on turn). -/
theorem changeTurn_eliminate_invariant_witness :
    ∃ l3 msgs elim,
      goIndex threeAliveLobby.aliveClients threeAliveLobby.turnIndex = some elim ∧
      changeTurn testEnv threeAliveLobby true = some (l3, msgs) ∧
      elim ∉ l3.aliveClients ∧
      l3.aliveClients.length + 1 = threeAliveLobby.aliveClients.length ∧
      0 ≤ l3.turnIndex ∧ l3.turnIndex < (l3.aliveClients.length : Int) ∧
      (threeAliveLobby.turnIndex = (threeAliveLobby.aliveClients.length : Int) - 1 →
        l3.turnIndex = 0) ∧
      (threeAliveLobby.turnIndex < (threeAliveLobby.aliveClients.length : Int) - 1 →
        l3.turnIndex = threeAliveLobby.turnIndex ∧
        goIndex l3.aliveClients l3.turnIndex =
          goIndex threeAliveLobby.aliveClients (threeAliveLobby.turnIndex + 1)) :=
  changeTurn_eliminate_invariant testEnv threeAliveLobby (by decide) (by decide)
    (by decide) (by decide) (by decide)

/-- C2 counterexample: at `turnRounds = 11` the code gives an 18-second
turn (difficulty hard), not the 16 seconds the claim states. -/
theorem turn_schedule_counterexample :
    getTurnDifficulty (roundsLobby 11) = ChallengeDifficulty.ChallengeHard ∧
    getTurnLimitDuration (roundsLobby 11) = 18 ∧
    ¬ getTurnLimitDuration (roundsLobby 11) = 16 := by decide

/-- C2 (amended): the schedule gives 20s/easy at round 0, 25s/easy at
round 1, 18s/medium at round 6 and 18s/hard at round 11; 16 seconds only
starts strictly above round 12, while difficulty switches to hard strictly
above round 10. -/
theorem turn_schedule_amended :
    (getTurnLimitDuration (roundsLobby 0) = 20 ∧
      getTurnDifficulty (roundsLobby 0) = ChallengeDifficulty.ChallengeEasy) ∧
    (getTurnLimitDuration (roundsLobby 1) = 25 ∧
      getTurnDifficulty (roundsLobby 1) = ChallengeDifficulty.ChallengeEasy) ∧
    (getTurnLimitDuration (roundsLobby 6) = 18 ∧
      getTurnDifficulty (roundsLobby 6) = ChallengeDifficulty.ChallengeMedium) ∧
    (getTurnLimitDuration (roundsLobby 11) = 18 ∧
      getTurnDifficulty (roundsLobby 11) = ChallengeDifficulty.ChallengeHard) ∧
    (getTurnLimitDuration (roundsLobby 12) = 18 ∧
      getTurnLimitDuration (roundsLobby 13) = 16) ∧
    (∀ lobby : Lobby,
      getTurnDifficulty lobby = ChallengeDifficulty.ChallengeHard ↔ 10 < lobby.turnRounds) := by
  refine ⟨by decide, by decide, by decide, by decide, by decide, fun lobby => ?_⟩
  unfold getTurnDifficulty
  split_ifs with h1 h2 <;> simp [h1]

/-- C6: a leave event for a client id that is no longer in the `clients`
map is a complete no-op — the state is returned unchanged and nothing is
broadcast. -/
theorem onClientLeave_idempotent (env : Env) (lobby : Lobby) (c : Client)
    (habsent : clientsHasId lobby.clients c.id = false) :
    onClientLeave env lobby c = some (lobby, []) := by
  unfold onClientLeave
  rw [if_pos habsent]

/-- Witness for C6: a second leave of a client absent from `twoAliveLobby`. -/
theorem onClientLeave_idempotent_witness :
    onClientLeave testEnv twoAliveLobby cC = some (twoAliveLobby, []) :=
  onClientLeave_idempotent testEnv twoAliveLobby cC (by decide)

/-- C9: a turn change in either mode never touches `currentAnswerPrev`;
it persists until the next answer_preview overwrites it, and the catch-up
snapshot copies it verbatim. -/
theorem answer_preview_persistence :
    (∀ (env : Env) (lobby : Lobby) (b : Bool) (l3 : Lobby) (msgs : List Msg),
      changeTurn env lobby b = some (l3, msgs) →
      l3.currentAnswerPrev = lobby.currentAnswerPrev) ∧
    (∀ (lobby : Lobby) (jid : Int) (d : ClientDetailsContent),
      BuildClientDetails lobby jid = some d →
      d.CurrentAnswerPrev = lobby.currentAnswerPrev) ∧
    (∀ (lobby : Lobby) (cur : Client) (text : String),
      lobby.status = GameStatus.InProgress →
      goIndex lobby.aliveClients lobby.turnIndex = some cur →
      onAnswerPreview lobby cur.id (GoVal.strVal text) =
        some ({ lobby with currentAnswerPrev := text }, [Msg.AnswerPreview text])) := by
  refine ⟨?_, ?_, ?_⟩
  · intro env lobby b l3 msgs h
    exact (changeTurn_fields h).1
  · intro lobby jid d h
    unfold BuildClientDetails at h
    dsimp only at h
    split_ifs at h with hs
    · cases hgi : goIndex lobby.aliveClients lobby.turnIndex with
      | none => rw [hgi] at h; cases h
      | some cu =>
        rw [hgi] at h
        dsimp only at h
        exact (Option.some.inj h) ▸ rfl
    · exact (Option.some.inj h) ▸ rfl
  · intro lobby cur text hs hcur
    unfold onAnswerPreview
    rw [if_pos hs, hcur]
    dsimp only
    rw [if_pos rfl]

/-- Witness for C9 at `threeAliveLobby` (advance-mode turn change, snapshot
for a joiner, and a preview overwrite by the turn holder cB). -/
theorem answer_preview_persistence_witness :
    witAdvance.1.currentAnswerPrev = threeAliveLobby.currentAnswerPrev ∧
    witDetails.CurrentAnswerPrev = threeAliveLobby.currentAnswerPrev ∧
    onAnswerPreview threeAliveLobby cB.id (GoVal.strVal "atro") =
      some ({ threeAliveLobby with currentAnswerPrev := "atro" },
        [Msg.AnswerPreview "atro"]) :=
  ⟨answer_preview_persistence.1 testEnv threeAliveLobby false witAdvance.1 witAdvance.2
      (by decide),
   answer_preview_persistence.2.1 threeAliveLobby 4 witDetails (by decide),
   answer_preview_persistence.2.2 threeAliveLobby cB "atro" (by decide) (by decide)⟩

/-- C5: for an accepted-for-processing submission (in progress, sender is
the turn holder, string payload) the checks run in order — not a word,
equal to the challenge, not containing the challenge — each failure
broadcasting a rejection with the literal text; otherwise acceptance is
broadcast with the literal text and the turn advances in advance mode,
leaving `aliveClients` unchanged. -/
theorem onAnswerSubmitted_validation (env : Env) (lobby : Lobby) (cur : Client)
    (answer : String)
    (hstatus : lobby.status = GameStatus.InProgress)
    (hcur : goIndex lobby.aliveClients lobby.turnIndex = some cur) :
    (env.isValidWord answer = false →
      onAnswerSubmitted env lobby cur.id (GoVal.strVal answer) =
        some (lobby, [Msg.AnswerRejected answer])) ∧
    (env.isValidWord answer = true → answer = lobby.currentChallenge →
      onAnswerSubmitted env lobby cur.id (GoVal.strVal answer) =
        some (lobby, [Msg.AnswerRejected answer])) ∧
    (env.isValidWord answer = true → answer ≠ lobby.currentChallenge →
      goStringsContains answer lobby.currentChallenge = false →
      onAnswerSubmitted env lobby cur.id (GoVal.strVal answer) =
        some (lobby, [Msg.AnswerRejected answer])) ∧
    (env.isValidWord answer = true → answer ≠ lobby.currentChallenge →
      goStringsContains answer lobby.currentChallenge = true →
      ∃ l3 c2 ch te,
        onAnswerSubmitted env lobby cur.id (GoVal.strVal answer) =
          some (l3, [Msg.AnswerAccepted answer, Msg.ClientsTurn c2 ch te]) ∧
        l3.aliveClients = lobby.aliveClients) := by
  refine ⟨?_, ?_, ?_, ?_⟩
  · intro hv
    unfold onAnswerSubmitted
    rw [if_pos hstatus, hcur]
    dsimp only
    rw [if_pos rfl, if_pos hv]
  · intro hv heq
    unfold onAnswerSubmitted
    rw [if_pos hstatus, hcur]
    dsimp only
    rw [if_pos rfl, if_neg (by rw [hv]; simp), if_pos heq]
  · intro hv heq hcont
    unfold onAnswerSubmitted
    rw [if_pos hstatus, hcur]
    dsimp only
    rw [if_pos rfl, if_neg (by rw [hv]; simp), if_neg heq, if_pos hcont]
  · intro hv heq hcont
    obtain ⟨hb0, hblt⟩ := goIndex_some_bounds hcur
    obtain ⟨l3, c2, hrun, ha, -, -, -, -, -, -⟩ :=
      changeTurn_false_spec env lobby (by omega) (Or.inr (by rw [hcur]; simp))
    refine ⟨l3, c2.id, l3.currentChallenge, l3.currentTurnEnd, ?_, ha⟩
    unfold onAnswerSubmitted
    rw [if_pos hstatus, hcur]
    dsimp only
    rw [if_pos rfl, if_neg (by rw [hv]; simp), if_neg heq,
      if_neg (by rw [hcont]; simp), hrun]

/-- Witness for C5: four submissions against challenge "atr" in
`threeAliveLobby` with cB on turn ("z" not a word, "atr" equal to the
challenge, "xy" not containing it, "atrium" accepted). -/
theorem onAnswerSubmitted_validation_witness :
    (onAnswerSubmitted testEnv threeAliveLobby cB.id (GoVal.strVal "z") =
      some (threeAliveLobby, [Msg.AnswerRejected "z"])) ∧
    (onAnswerSubmitted testEnv threeAliveLobby cB.id (GoVal.strVal "atr") =
      some (threeAliveLobby, [Msg.AnswerRejected "atr"])) ∧
    (onAnswerSubmitted testEnv threeAliveLobby cB.id (GoVal.strVal "xy") =
      some (threeAliveLobby, [Msg.AnswerRejected "xy"])) ∧
    (∃ l3 c2 ch te,
      onAnswerSubmitted testEnv threeAliveLobby cB.id (GoVal.strVal "atrium") =
        some (l3, [Msg.AnswerAccepted "atrium", Msg.ClientsTurn c2 ch te]) ∧
      l3.aliveClients = threeAliveLobby.aliveClients) :=
  ⟨(onAnswerSubmitted_validation testEnv threeAliveLobby cB "z" (by decide)
      (by decide)).1 (by decide),
   (onAnswerSubmitted_validation testEnv threeAliveLobby cB "atr" (by decide)
      (by decide)).2.1 (by decide) (by decide),
   (onAnswerSubmitted_validation testEnv threeAliveLobby cB "xy" (by decide)
      (by decide)).2.2.1 (by decide) (by decide) (by decide),
   (onAnswerSubmitted_validation testEnv threeAliveLobby cB "atrium" (by decide)
      (by decide)).2.2.2 (by decide) (by decide) (by decide)⟩

/-- C7: start_game changes nothing unless the lobby is waiting with at
least two clients; a valid start makes `aliveClients` the full roster
sorted ascending by id, sets the status to InProgress, and hands the first
turn to the lowest-id client. -/
theorem onStartGame_spec (env : Env) (lobby : Lobby)
    (hturn : lobby.turnIndex = -1) :
    (¬ (lobby.status = GameStatus.WaitingForPlayers ∧ 2 ≤ lobby.clients.length) →
      onStartGame env lobby = some (lobby, [])) ∧
    (lobby.status = GameStatus.WaitingForPlayers → 2 ≤ lobby.clients.length →
      ∃ l3 msgs first,
        onStartGame env lobby = some (l3, msgs) ∧
        l3.status = GameStatus.InProgress ∧
        l3.aliveClients = sortClientsById lobby.clients ∧
        List.Perm l3.aliveClients lobby.clients ∧
        l3.aliveClients.Sorted clientIdLe ∧
        l3.turnIndex = 0 ∧
        goIndex l3.aliveClients 0 = some first ∧
        first ∈ lobby.clients ∧
        (∀ c ∈ lobby.clients, first.id ≤ c.id)) := by
  constructor
  · intro hng
    unfold onStartGame
    rw [if_neg hng]
  · intro hw h2
    have hperm0 : List.Perm (sortClientsById lobby.clients) lobby.clients :=
      List.perm_insertionSort _ _
    have hsort0 : (sortClientsById lobby.clients).Sorted clientIdLe :=
      List.sorted_insertionSort _ _
    set m := resetAliveClients { lobby with status := GameStatus.InProgress } with hm
    have hma : m.aliveClients = sortClientsById lobby.clients := rfl
    have hlenm : 0 < m.aliveClients.length := by
      rw [hma]
      have := hperm0.length_eq
      omega
    have hmturn : m.turnIndex = -1 := hturn
    obtain ⟨l3, cur, hrun, ha, hc, hs, hp, ht, hcur, hm1⟩ :=
      changeTurn_false_spec env m hlenm (Or.inl hmturn)
    obtain ⟨ht0, -⟩ := hm1 hmturn
    have ha2 : l3.aliveClients = sortClientsById lobby.clients := ha.trans hma
    have hcur0 : goIndex l3.aliveClients 0 = some cur := by
      rw [ha2, ← hma, ← ht0]
      exact hcur
    have hcurmem : cur ∈ lobby.clients := by
      have h1 : cur ∈ m.aliveClients := List.getElem?_mem (goIndex_eq_some.mp hcur).2
      rw [hma] at h1
      exact hperm0.mem_iff.mp h1
    refine ⟨l3, [Msg.ClientsTurn cur.id l3.currentChallenge l3.currentTurnEnd], cur,
      ?_, hs, ha2, ha2 ▸ hperm0, ha2 ▸ hsort0, ht0, hcur0, hcurmem, ?_⟩
    · unfold onStartGame
      rw [if_pos ⟨hw, h2⟩]
      exact hrun
    · intro c hcmem
      have hcs : c ∈ sortClientsById lobby.clients := hperm0.mem_iff.mpr hcmem
      obtain ⟨-, hg⟩ := goIndex_eq_some.mp hcur0
      cases hsl : sortClientsById lobby.clients with
      | nil => rw [hsl] at hcs; cases hcs
      | cons hd tl =>
        have hhd : hd = cur := by
          rw [ha2, hsl] at hg
          simpa using hg
        have hsorted2 := hsort0
        rw [hsl] at hsorted2
        obtain ⟨hall, -⟩ := List.sorted_cons.mp hsorted2
        rw [hsl] at hcs
        rcases List.mem_cons.mp hcs with h | h
        · rw [h, ← hhd]
        · exact hhd ▸ hall c h

/-- Witness for C7: a one-client start is ignored; a two-client start on
the unsorted roster `[cB, cA]` begins with lowest-id cA. -/
theorem onStartGame_spec_witness :
    (onStartGame testEnv oneClientLobby = some (oneClientLobby, [])) ∧
    (∃ l3 msgs first,
      onStartGame testEnv waitingLobby = some (l3, msgs) ∧
      l3.status = GameStatus.InProgress ∧
      l3.aliveClients = sortClientsById waitingLobby.clients ∧
      List.Perm l3.aliveClients waitingLobby.clients ∧
      l3.aliveClients.Sorted clientIdLe ∧
      l3.turnIndex = 0 ∧
      goIndex l3.aliveClients 0 = some first ∧
      first ∈ waitingLobby.clients ∧
      (∀ c ∈ waitingLobby.clients, first.id ≤ c.id)) :=
  ⟨(onStartGame_spec testEnv oneClientLobby (by decide)).1 (by decide),
   (onStartGame_spec testEnv waitingLobby (by decide)).2 (by decide) (by decide)⟩

/-- C8: restart_game changes nothing unless the game is over with at least
two clients present; a valid restart re-derives `aliveClients` from the
currently connected clients sorted by id (not from the pre-restart alive
set), resets `turnIndex` to -1 and `turnRounds` to 0 before advancing the
turn once (so afterwards the index is 0 and the round counter 1), and
broadcasts the restart notice before the new-turn broadcast. -/
theorem onRestartGame_spec (env : Env) (lobby : Lobby) :
    (¬ (lobby.status = GameStatus.Over ∧ 2 ≤ lobby.clients.length) →
      onRestartGame env lobby = some (lobby, [])) ∧
    (lobby.status = GameStatus.Over → 2 ≤ lobby.clients.length →
      ∃ l3 c2 ch te,
        onRestartGame env lobby =
          some (l3, [Msg.RestartGame, Msg.ClientsTurn c2 ch te]) ∧
        l3.status = GameStatus.InProgress ∧
        l3.aliveClients = sortClientsById lobby.clients ∧
        List.Perm l3.aliveClients lobby.clients ∧
        l3.turnIndex = 0 ∧
        l3.turnRounds = 1) := by
  constructor
  · intro hng
    unfold onRestartGame
    rw [if_neg hng]
  · intro hov h2
    have hperm0 : List.Perm (sortClientsById lobby.clients) lobby.clients :=
      List.perm_insertionSort _ _
    set m : Lobby :=
      { resetAliveClients lobby with
          status := GameStatus.InProgress
          turnIndex := -1
          turnRounds := 0 } with hm
    have hma : m.aliveClients = sortClientsById lobby.clients := rfl
    have hlenm : 0 < m.aliveClients.length := by
      rw [hma]
      have := hperm0.length_eq
      omega
    obtain ⟨l3, cur, hrun, ha, hc, hs, hp, ht, hcur, hm1⟩ :=
      changeTurn_false_spec env m hlenm (Or.inl rfl)
    obtain ⟨ht0, hr1⟩ := hm1 rfl
    have ha2 : l3.aliveClients = sortClientsById lobby.clients := ha.trans hma
    refine ⟨l3, cur.id, l3.currentChallenge, l3.currentTurnEnd, ?_, hs, ha2,
      ha2 ▸ hperm0, ht0, hr1⟩
    unfold onRestartGame
    rw [if_pos ⟨hov, h2⟩]
    dsimp only
    rw [hrun]

/-- Witness for C8: a restart on `overLobby` (two connected clients, one
pre-restart survivor) and an ignored restart on a waiting lobby. -/
theorem onRestartGame_spec_witness :
    (onRestartGame testEnv waitingLobby = some (waitingLobby, [])) ∧
    (∃ l3 c2 ch te,
      onRestartGame testEnv overLobby =
        some (l3, [Msg.RestartGame, Msg.ClientsTurn c2 ch te]) ∧
      l3.status = GameStatus.InProgress ∧
      l3.aliveClients = sortClientsById overLobby.clients ∧
      List.Perm l3.aliveClients overLobby.clients ∧
      l3.turnIndex = 0 ∧
      l3.turnRounds = 1) :=
  ⟨(onRestartGame_spec testEnv waitingLobby).1 (by decide),
   (onRestartGame_spec testEnv overLobby).2 (by decide) (by decide)⟩

/-- C4: with exactly two alive clients in an in-progress game, eliminating
either of them — by turn expiry or by disconnect — ends the game: the
status becomes Over, the other client's id is broadcast in game_over, and
the survivor's display name is captured as the winner's name. -/
theorem two_alive_elimination_game_over (env : Env) (lobby : Lobby) (a b : Client)
    (hstatus : lobby.status = GameStatus.InProgress)
    (halive : lobby.aliveClients = [a, b])
    (hne : a ≠ b) :
    (lobby.turnIndex = 0 →
      ∃ l3, onTurnExpired env lobby =
          some (l3, [Msg.TurnExpired a.id, Msg.TurnExpired a.id, Msg.GameOver b.id]) ∧
        l3.status = GameStatus.Over ∧ l3.winnersName = b.displayName) ∧
    (lobby.turnIndex = 1 →
      ∃ l3, onTurnExpired env lobby =
          some (l3, [Msg.TurnExpired b.id, Msg.TurnExpired b.id, Msg.GameOver a.id]) ∧
        l3.status = GameStatus.Over ∧ l3.winnersName = a.displayName) ∧
    (clientsHasId lobby.clients a.id = true →
      ∃ l3, onClientLeave env lobby a =
          some (l3, [Msg.ClientLeft a.id, Msg.GameOver b.id]) ∧
        l3.status = GameStatus.Over ∧ l3.winnersName = b.displayName) ∧
    (clientsHasId lobby.clients b.id = true →
      ∃ l3, onClientLeave env lobby b =
          some (l3, [Msg.ClientLeft b.id, Msg.GameOver a.id]) ∧
        l3.status = GameStatus.Over ∧ l3.winnersName = a.displayName) := by
  have hg0 : goIndex lobby.aliveClients 0 = some a := by rw [halive]; rfl
  have hg1 : goIndex lobby.aliveClients 1 = some b := by rw [halive]; rfl
  have hlen2 : ¬ lobby.aliveClients.length > 2 := by rw [halive]; simp
  refine ⟨?_, ?_, ?_, ?_⟩
  · intro hturn
    unfold onTurnExpired
    rw [if_neg (by simp [hstatus]), hturn, hg0]
    try dsimp only
    rw [if_neg hlen2]
    try dsimp only
    rw [hg0, if_pos rfl, hg1]
    try dsimp only
    exact ⟨_, rfl, rfl, rfl⟩
  · intro hturn
    unfold onTurnExpired
    rw [if_neg (by simp [hstatus]), hturn, hg1]
    try dsimp only
    rw [if_neg hlen2]
    try dsimp only
    rw [hg1, if_neg (by norm_num), hg0]
    try dsimp only
    exact ⟨_, rfl, rfl, rfl⟩
  · intro hhas
    unfold onClientLeave
    rw [if_neg (by rw [hhas]; simp)]
    dsimp only
    rw [if_neg (by
      rintro (h | h)
      · exact h hstatus
      · exact h (by rw [halive]; simp))]
    rw [if_pos (by rw [halive]; rfl)]
    rw [show lobby.aliveClients[0]? = some a by rw [halive]; rfl,
      show lobby.aliveClients[1]? = some b by rw [halive]; rfl]
    dsimp only
    rw [if_pos rfl]
    exact ⟨_, rfl, rfl, rfl⟩
  · intro hhas
    unfold onClientLeave
    rw [if_neg (by rw [hhas]; simp)]
    dsimp only
    rw [if_neg (by
      rintro (h | h)
      · exact h hstatus
      · exact h (by rw [halive]; simp))]
    rw [if_pos (by rw [halive]; rfl)]
    rw [show lobby.aliveClients[0]? = some a by rw [halive]; rfl,
      show lobby.aliveClients[1]? = some b by rw [halive]; rfl]
    dsimp only
    rw [if_neg hne]
    exact ⟨_, rfl, rfl, rfl⟩

/-- Witness for C4: timeouts at index 0 and 1, and disconnects of either
client, in the two-alive lobbies. -/
theorem two_alive_elimination_game_over_witness :
    (∃ l3, onTurnExpired testEnv twoAliveLobby =
        some (l3, [Msg.TurnExpired cA.id, Msg.TurnExpired cA.id, Msg.GameOver cB.id]) ∧
      l3.status = GameStatus.Over ∧ l3.winnersName = cB.displayName) ∧
    (∃ l3, onTurnExpired testEnv twoAliveLobbyB =
        some (l3, [Msg.TurnExpired cB.id, Msg.TurnExpired cB.id, Msg.GameOver cA.id]) ∧
      l3.status = GameStatus.Over ∧ l3.winnersName = cA.displayName) ∧
    (∃ l3, onClientLeave testEnv twoAliveLobby cA =
        some (l3, [Msg.ClientLeft cA.id, Msg.GameOver cB.id]) ∧
      l3.status = GameStatus.Over ∧ l3.winnersName = cB.displayName) ∧
    (∃ l3, onClientLeave testEnv twoAliveLobby cB =
        some (l3, [Msg.ClientLeft cB.id, Msg.GameOver cA.id]) ∧
      l3.status = GameStatus.Over ∧ l3.winnersName = cA.displayName) :=
  ⟨(two_alive_elimination_game_over testEnv twoAliveLobby cA cB (by decide) (by decide)
      (by decide)).1 (by decide),
   (two_alive_elimination_game_over testEnv twoAliveLobbyB cA cB (by decide) (by decide)
      (by decide)).2.1 (by decide),
   (two_alive_elimination_game_over testEnv twoAliveLobby cA cB (by decide) (by decide)
      (by decide)).2.2.1 (by decide),
   (two_alive_elimination_game_over testEnv twoAliveLobby cA cB (by decide) (by decide)
      (by decide)).2.2.2 (by decide)⟩

/-- C10: when the expiry timer fires in an in-progress game with exactly
two alive clients, turn_expired with the current holder's id is broadcast
twice, followed by one game_over with the winner's id; with more than two
alive clients turn_expired is broadcast exactly once, followed by the next
clients_turn broadcast. -/
theorem onTurnExpired_broadcast_shape (env : Env) (lobby : Lobby) (cur : Client)
    (hstatus : lobby.status = GameStatus.InProgress)
    (hcur : goIndex lobby.aliveClients lobby.turnIndex = some cur) :
    (lobby.aliveClients.length = 2 →
      ∃ (l3 : Lobby) (w : Client), onTurnExpired env lobby =
        some (l3, [Msg.TurnExpired cur.id, Msg.TurnExpired cur.id, Msg.GameOver w.id])) ∧
    (2 < lobby.aliveClients.length → (lobby.aliveClients.map Client.id).Nodup →
      ∃ l3 c2 ch te, onTurnExpired env lobby =
        some (l3, [Msg.TurnExpired cur.id, Msg.ClientsTurn c2 ch te])) := by
  constructor
  · intro hlen2
    unfold onTurnExpired
    rw [if_neg (by simp [hstatus]), hcur]
    dsimp only
    rw [if_neg (by omega), hcur]
    dsimp only
    by_cases ht0 : lobby.turnIndex = 0
    · rw [if_pos ht0]
      obtain ⟨w, hw⟩ := goIndex_isSome_of_lt (l := lobby.aliveClients) (i := 1)
        (by norm_num) (by omega)
      rw [hw]
      exact ⟨_, w, rfl⟩
    · rw [if_neg ht0]
      obtain ⟨w, hw⟩ := goIndex_isSome_of_lt (l := lobby.aliveClients) (i := 0)
        (by norm_num) (by omega)
      rw [hw]
      exact ⟨_, w, rfl⟩
  · intro hlen3 hnd
    unfold onTurnExpired
    rw [if_neg (by simp [hstatus]), hcur]
    dsimp only
    rw [if_pos (by omega)]
    obtain ⟨l3, c2, hrun, -, -, -, -, -, -, -, -, -⟩ :=
      changeTurn_true_spec env lobby cur hcur hnd (by omega)
    rw [hrun]
    exact ⟨l3, c2.id, l3.currentChallenge, l3.currentTurnEnd, rfl⟩

/-- Witness for C10 at `twoAliveLobby` (double turn_expired then game_over)
and `threeAliveLobby` (single turn_expired then clients_turn). -/
theorem onTurnExpired_broadcast_shape_witness :
    (∃ (l3 : Lobby) (w : Client), onTurnExpired testEnv twoAliveLobby =
      some (l3, [Msg.TurnExpired cA.id, Msg.TurnExpired cA.id, Msg.GameOver w.id])) ∧
    (∃ l3 c2 ch te, onTurnExpired testEnv threeAliveLobby =
      some (l3, [Msg.TurnExpired cB.id, Msg.ClientsTurn c2 ch te])) :=
  ⟨(onTurnExpired_broadcast_shape testEnv twoAliveLobby cA (by decide) (by decide)).1
      (by decide),
   (onTurnExpired_broadcast_shape testEnv threeAliveLobby cB (by decide) (by decide)).2
      (by decide) (by decide)⟩

/-- C3 counterexample: cA leaves `twoAliveLobby` (exactly two alive, game in
progress); the handler completes and removes cA from `clients`, but cA is
still a member of `aliveClients` afterwards, contradicting the claim that
the leaver is removed from `aliveClients` in every branch. -/
theorem onClientLeave_two_alive_counterexample :
    onClientLeave testEnv twoAliveLobby cA = some (leaveTwoAlive.1, leaveTwoAlive.2) ∧
    clientsHasId leaveTwoAlive.1.clients cA.id = false ∧
    cA ∈ leaveTwoAlive.1.aliveClients ∧
    leaveTwoAlive.1.status = GameStatus.Over := by decide

/-- C3 (amended): a completed leave always removes the leaver's id from
`clients`; when the game is in progress and the leaver was alive, the
leaver is removed from `aliveClients` whenever more or fewer than two
clients were alive, but in the exactly-two-alive branch the game
transitions to Over with `aliveClients` left unchanged (the leaver stays
in it). -/
theorem onClientLeave_removal_amended (env : Env) (lobby : Lobby) (c : Client)
    (l3 : Lobby) (msgs : List Msg)
    (hsub : ∀ x ∈ lobby.aliveClients, x ∈ lobby.clients)
    (hrun : onClientLeave env lobby c = some (l3, msgs)) :
    clientsHasId l3.clients c.id = false ∧
    (lobby.status = GameStatus.InProgress → c ∈ lobby.aliveClients →
      lobby.aliveClients.length = 2 →
      l3.aliveClients = lobby.aliveClients ∧ c ∈ l3.aliveClients ∧
        l3.status = GameStatus.Over) ∧
    (lobby.status = GameStatus.InProgress → c ∈ lobby.aliveClients →
      lobby.aliveClients.length ≠ 2 →
      ¬ c.id ∈ l3.aliveClients.map Client.id) := by
  unfold onClientLeave at hrun
  by_cases hguard : clientsHasId lobby.clients c.id = false
  · rw [if_pos hguard] at hrun
    rw [Option.some.injEq, Prod.mk.injEq] at hrun
    obtain ⟨h1, h2⟩ := hrun
    subst h1
    refine ⟨hguard, ?_, ?_⟩ <;> intro hst hc hln <;>
      exact absurd (clientsHasId_of_mem (hsub c hc)) (by rw [hguard]; simp)
  · rw [if_neg hguard] at hrun
    try dsimp only at hrun
    by_cases hA : lobby.status ≠ GameStatus.InProgress ∨ c ∉ lobby.aliveClients
    · rw [if_pos hA] at hrun
      rw [Option.some.injEq, Prod.mk.injEq] at hrun
      obtain ⟨h1, h2⟩ := hrun
      subst h1
      refine ⟨clientsHasId_delete _ _, ?_, ?_⟩ <;> intro hst hc hln <;>
        exact absurd hA (by simp [hst, hc])
    · rw [if_neg hA] at hrun
      by_cases hB : lobby.aliveClients.length = 2
      · rw [if_pos hB] at hrun
        obtain ⟨a0, ha0⟩ : ∃ a0, lobby.aliveClients[0]? = some a0 :=
          ⟨_, List.getElem?_eq_getElem (by omega)⟩
        obtain ⟨a1, ha1⟩ : ∃ a1, lobby.aliveClients[1]? = some a1 :=
          ⟨_, List.getElem?_eq_getElem (by omega)⟩
        rw [ha0, ha1] at hrun
        try dsimp only at hrun
        rw [Option.some.injEq, Prod.mk.injEq] at hrun
        obtain ⟨h1, h2⟩ := hrun
        subst h1
        push_neg at hA
        refine ⟨clientsHasId_delete _ _, ?_, ?_⟩
        · intro hst hc hln
          exact ⟨rfl, hc, rfl⟩
        · intro hst hc hln
          exact absurd hB hln
      · rw [if_neg hB] at hrun
        try dsimp only at hrun
        push_neg at hA
        obtain ⟨hA1, hA2⟩ := hA
        by_cases hC : goSlicesIndex c lobby.aliveClients = lobby.turnIndex
        · rw [if_pos hC] at hrun
          cases hct : changeTurn env
              { lobby with clients := clientsDelete lobby.clients c.id } true with
          | none => rw [hct] at hrun; cases hrun
          | some p =>
            obtain ⟨l2, msgs2⟩ := p
            rw [hct] at hrun
            try dsimp only at hrun
            rw [Option.some.injEq, Prod.mk.injEq] at hrun
            obtain ⟨h1, h2⟩ := hrun
            subst h1
            obtain ⟨e, hgi, halF⟩ := changeTurn_true_alive hct
            obtain ⟨-, hcl, -⟩ := changeTurn_fields hct
            have hec : e = c := by
              obtain ⟨h0s, hidxs⟩ := goSlicesIndex_spec lobby.aliveClients c hA2
              rw [hC] at hidxs
              have := hgi.symm.trans hidxs
              exact Option.some.inj this
            refine ⟨?_, ?_, ?_⟩
            · rw [hcl]
              exact clientsHasId_delete _ _
            · intro hst hc2 hln
              exact absurd hln hB
            · intro hst hc2 hln
              rw [halF, hec]
              exact id_not_mem_filter_ne _ _
        · rw [if_neg hC] at hrun
          try dsimp only at hrun
          by_cases hD : goSlicesIndex c lobby.aliveClients < lobby.turnIndex <;>
            [rw [if_pos hD] at hrun; rw [if_neg hD] at hrun] <;>
          · rw [Option.some.injEq, Prod.mk.injEq] at hrun
            obtain ⟨h1, h2⟩ := hrun
            subst h1
            refine ⟨clientsHasId_delete _ _, ?_, ?_⟩
            · intro hst hc2 hln
              exact absurd hln hB
            · intro hst hc2 hln
              exact id_not_mem_filter_ne _ _

/-- Witness for C3 (amended) at `threeAliveLobby`: cC (alive, not on turn)
leaves; its id is gone from both `clients` and `aliveClients`. -/
theorem onClientLeave_removal_amended_witness :
    clientsHasId leaveThreeAlive.1.clients cC.id = false ∧
    ¬ cC.id ∈ leaveThreeAlive.1.aliveClients.map Client.id := by
  have h := onClientLeave_removal_amended testEnv threeAliveLobby cC
    leaveThreeAlive.1 leaveThreeAlive.2 (by decide) (by decide)
  exact ⟨h.1, h.2.2 (by decide) (by decide) (by decide)⟩

end Wordgame
